/-
Verification of the autosnapgene codec and document model.

This file shallowly embeds the parts of `src/autosnapgene/parser.py` that the
claims C1-C10 are about:

* the byte-level block container codec (`blocks_from_bytes`, `bytes_from_block`)
  together with the fixed binary block layouts (header, DNA, protein,
  restriction-digest, aligned-sequence) and the raw-passthrough handler used
  for the `UnparsedBlock` subclasses and for unregistered block ids;
* the generic XML attribute/subtag emission logic of `Xml.to_xml`
  (which fields get written, with default suppression);
* the document model `SnapGene` with its feature operations
  (`add_feature`, `remove_feature`) and trace operations
  (`insert_trace`, `append_trace`, `prepend_trace`, `remove_trace`,
  `get_traces`, `count_traces`).

Python strings are modelled as Lean `String`, byte strings as `List Nat`
(each element a byte value), Python ints as `Int` where sign matters and
`Nat` where the source only ever produces non-negative values.  Python
exceptions are modelled by an explicit error type; operations that in the
source may raise after having already mutated the document return the
document state at the raise point alongside the error, so that atomicity
properties are expressible.
-/
import Mathlib

namespace AutoSnapGene

/-- The kinds of Python exceptions the embedded code can raise.  `structError`
stands for `struct.error` (bad buffer size or value out of range in
`struct.pack`/`unpack`), `unicodeError` for `UnicodeDecodeError` /
`UnicodeEncodeError` from the strict `'ascii'` codec, `snapGeneError` for the
repository's `SnapGeneError`, and `nameError` for the `NameError` that
`blocks_from_bytes` itself raises in its `except SnapGeneError` handler
(the handler reads a variable `path` that is not defined in that function).
`unmodelledXml` marks the three XML-backed block handlers (notes 6,
features 10, alignments 17) whose byte-level XML parsing is outside this
embedding; no theorem below evaluates those tags. -/
inductive PyError where
  | structError
  | indexError
  | unicodeError
  | snapGeneError
  | nameError
  | keyError
  | valueError
  | blockNotFound
  | assertionError
  | sequenceNotFound
  | featureNotFound
  | subprocessError
  | unmodelledXml
deriving DecidableEq, Repr

/-- Big-endian 4-byte encoding of `n`, as produced by `struct.pack('>I', n)`
for `n < 2^32`. -/
def toBE32 (n : Nat) : List Nat :=
  [n / 16777216 % 256, n / 65536 % 256, n / 256 % 256, n % 256]

/-- The value read by `struct.unpack('>I', ...)` from four bytes. -/
def fromBE32 (a b c d : Nat) : Nat :=
  ((a * 256 + b) * 256 + c) * 256 + d

/-- Big-endian 2-byte encoding, as produced by `struct.pack('>H', n)`. -/
def toBE16 (n : Nat) : List Nat :=
  [n / 256 % 256, n % 256]

/-- The value read by `struct.unpack('>H', ...)` from two bytes. -/
def fromBE16 (a b : Nat) : Nat := a * 256 + b

/-- Python's `str.encode('ascii')`: strict, fails on any code point ≥ 128. -/
def encodeAscii (s : String) : Except PyError (List Nat) :=
  if s.data.all (fun c => c.toNat < 128) then .ok (s.data.map Char.toNat)
  else .error .unicodeError

/-- Python's `bytes.decode('ascii')`: strict, fails on any byte ≥ 128. -/
def decodeAscii (bs : List Nat) : Except PyError String :=
  if bs.all (fun b => b < 128) then .ok ⟨bs.map Char.ofNat⟩
  else .error .unicodeError

/-! ## DnaBlock (`parser.py` lines 1157-1203)

The sequence block: one leading bit-field byte (0x01 circular topology,
0x02 double-strandedness, 0x04/0x08/0x10 the three methylation flags)
followed by the ASCII sequence letters.  Topology and strandedness are the
strings the source uses. -/

structure DnaBlock where
  topology : String
  strandedness : String
  is_dam_methylated : Bool
  is_dcm_methylated : Bool
  is_ecoki_methylated : Bool
  sequence : String
deriving DecidableEq, Repr

/-- Source `DnaBlock.from_bytes`: `bytes[0]` is the props bit field (`IndexError` on
an empty payload), `bytes[1:]` is decoded as strict ASCII. -/
def DnaBlock.from_bytes : List Nat → Except PyError DnaBlock
  | [] => .error .indexError
  | props :: rest =>
    match decodeAscii rest with
    | .error e => .error e
    | .ok seq =>
      .ok { topology := if props &&& 1 ≠ 0 then "circular" else "linear"
            strandedness := if props &&& 2 ≠ 0 then "double" else "single"
            is_dam_methylated := props &&& 4 ≠ 0
            is_dcm_methylated := props &&& 8 ≠ 0
            is_ecoki_methylated := props &&& 16 ≠ 0
            sequence := seq }

/-- Source `DnaBlock.to_bytes`: the props byte is the sum of the indicator bits;
the sequence is encoded as strict ASCII. -/
def DnaBlock.to_bytes (b : DnaBlock) : Except PyError (List Nat) :=
  match encodeAscii b.sequence with
  | .error e => .error e
  | .ok payload =>
    .ok (((if b.topology = "circular" then 1 else 0)
        + (if b.strandedness = "double" then 2 else 0)
        + (if b.is_dam_methylated then 4 else 0)
        + (if b.is_dcm_methylated then 8 else 0)
        + (if b.is_ecoki_methylated then 16 else 0)) :: payload)

/-! ## Block container codec (`parser.py` lines 37-72)

`blocks_from_bytes` repeatedly reads a 1-byte type tag and a 4-byte
big-endian length (`struct.unpack('>BI', bytes[i:j])`), slices out that many
payload bytes (a Python slice, which silently truncates when fewer bytes
remain), dispatches to the class registered for the tag (falling back to the
raw `UndocumentedBlock`), and stores the tag and the raw payload on the
decoded block.  A `SnapGeneError` raised by a handler is caught by an
`except SnapGeneError` clause that reads an undefined variable `path` and so
itself raises `NameError`.

A decoded block is a `PBlock`: its stream tag, its raw payload bytes, and a
structured interpretation `PContent`.  The three XML-backed handlers
(ids 6, 10, 17) parse XML text in the source; byte-level XML parsing is
outside this embedding and their dispatch is marked `unmodelledXml` -- no
theorem below exercises those tags. -/

mutual
inductive PContent where
  | raw : PContent
  | header (type_id export_version import_version : Nat) : PContent
  | dna (d : DnaBlock) : PContent
  | protein (props : Nat) (sequence : String) : PContent
  | restrictionDigest (unk_1 : Nat) (sites : List String) (unk_2 : List Nat) : PContent
  | alignedSeq (id : Nat) (traces : List PBlock) : PContent

inductive PBlock where
  | mk (block_id : Nat) (bytes : List Nat) (content : PContent) : PBlock
end

def PBlock.block_id : PBlock → Nat
  | .mk i _ _ => i

def PBlock.bytes : PBlock → List Nat
  | .mk _ bs _ => bs

def PBlock.content : PBlock → PContent
  | .mk _ _ c => c

/-- The block ids with a registered handler class (the `block_id` class
attributes collected into the `block_classes` registry). -/
def registeredIds : List Nat := [0, 1, 3, 5, 6, 7, 8, 9, 10, 11, 16, 17, 18, 19, 20, 21]

/-- Source `HeaderBlock.from_bytes`: the first 8 bytes must decode (strict ASCII) to
the magic cookie "SnapGene", else `SnapGeneError`; then
`struct.unpack('>HHH', bytes[8:14])` reads the three version fields
(`struct.error` when the slice is shorter than 6 bytes). -/
def headerFromBytes (bs : List Nat) : Except PyError PContent :=
  match decodeAscii (bs.take 8) with
  | .error e => .error e
  | .ok magic =>
    if magic ≠ "SnapGene" then .error .snapGeneError
    else match (bs.drop 8).take 6 with
      | [a, b, c, d, e2, f] =>
        .ok (.header (fromBE16 a b) (fromBE16 c d) (fromBE16 e2 f))
      | _ => .error .structError

/-- Source `ProteinBlock.from_bytes`: one props byte (`IndexError` on empty payload)
followed by the ASCII sequence. -/
def proteinFromBytes : List Nat → Except PyError PContent
  | [] => .error .indexError
  | props :: rest => (decodeAscii rest).map (.protein props)

/-- Source `RestrictionDigestBlock.from_bytes`: `struct.unpack('>BI', bytes[0:5])`
(`struct.error` when fewer than 5 bytes), then an ASCII comma-separated site
list of the declared length, then the opaque trailing bytes kept verbatim. -/
def rdFromBytes (bs : List Nat) : Except PyError PContent :=
  match bs.take 5 with
  | [u, a, b, c, d] =>
    let n := fromBE32 a b c d
    match decodeAscii ((bs.drop 5).take n) with
    | .error e => .error e
    | .ok s => .ok (.restrictionDigest u (s.splitOn ",") ((bs.drop 5).drop n))
  | _ => .error .structError

/-- The loop of `blocks_from_bytes`, with the per-tag dispatch of
`block_classes.get(id, UndocumentedBlock)` written inline.  `fuel` only
bounds the recursion; `blocksFromBytes` passes the input length, which always
suffices because every iteration consumes at least five bytes.  The
`UnparsedBlock` subclasses (ids 1, 5, 7, 8, 11, 18, 19, 20) and the
`UndocumentedBlock` fallback for unregistered ids all keep just the raw
payload, hence both produce `.raw`.  The id-16 branch is
`AlignedSequenceBlock.from_bytes`: a 4-byte big-endian id followed by a
nested block stream decoded recursively. -/
def blocksFromBytesAux : Nat → List Nat → Except PyError (List PBlock)
  | _, [] => .ok []
  | 0, _ :: _ => .error .structError
  | fuel + 1, b0 :: b1 :: b2 :: b3 :: b4 :: rest =>
    let size := fromBE32 b1 b2 b3 b4
    let content := rest.take size
    let parsed : Except PyError PContent :=
      if b0 = 0 then (DnaBlock.from_bytes content).map .dna
      else if b0 = 3 then rdFromBytes content
      else if b0 = 9 then headerFromBytes content
      else if b0 = 16 then
        match content.take 4 with
        | [a, b, c, d] =>
          match blocksFromBytesAux fuel (content.drop 4) with
          | .error e => .error e
          | .ok traces => .ok (.alignedSeq (fromBE32 a b c d) traces)
        | _ => .error .structError
      else if b0 = 21 then proteinFromBytes content
      else if b0 = 6 ∨ b0 = 10 ∨ b0 = 17 then .error .unmodelledXml
      else .ok .raw
    match parsed with
    | .error .snapGeneError => .error .nameError
    | .error e => .error e
    | .ok c =>
      match blocksFromBytesAux fuel (rest.drop size) with
      | .error e => .error e
      | .ok blks => .ok (.mk b0 content c :: blks)
  | _ + 1, _ :: _ => .error .structError

/-- Source `blocks_from_bytes`. -/
def blocksFromBytes (bs : List Nat) : Except PyError (List PBlock) :=
  blocksFromBytesAux bs.length bs

mutual
/-- Source `block.to_bytes()` for each modelled block class: raw blocks
(`UnparsedBlock.to_bytes`) return their stored bytes; the header emits the
magic cookie plus `struct.pack('>HHH', ...)`; DNA and protein blocks emit a
props byte plus ASCII sequence; the restriction-digest block re-packs its
flag byte, length-prefixed comma-joined site list, and opaque tail; the
aligned-sequence block packs its 4-byte id followed by the nested block
stream (`bytes_from_blocks`). -/
def pblockPayload : PBlock → Except PyError (List Nat)
  | .mk _ bs .raw => .ok bs
  | .mk _ _ (.header t e i) =>
    if t < 65536 ∧ e < 65536 ∧ i < 65536 then
      .ok ([83, 110, 97, 112, 71, 101, 110, 101] ++ toBE16 t ++ toBE16 e ++ toBE16 i)
    else .error .structError
  | .mk _ _ (.dna d) => d.to_bytes
  | .mk _ _ (.protein props seq) =>
    if props < 256 then (encodeAscii seq).map (props :: ·)
    else .error .structError
  | .mk _ _ (.restrictionDigest u sites tail) =>
    match encodeAscii (String.intercalate "," sites) with
    | .error e => .error e
    | .ok sb =>
      if u < 256 ∧ sb.length < 4294967296 then
        .ok (u :: toBE32 sb.length ++ sb ++ tail)
      else .error .structError
  | .mk _ _ (.alignedSeq i traces) =>
    if i < 4294967296 then
      match tracesToBytes traces with
      | .error e => .error e
      | .ok tb => .ok (toBE32 i ++ tb)
    else .error .structError

/-- Source `bytes_from_blocks` over the nested trace blocks: each block's payload is
wrapped with `struct.pack('>BI', block.block_id, len(bytes))` and the results
are concatenated (`bytes_from_block` inlined). -/
def tracesToBytes : List PBlock → Except PyError (List Nat)
  | [] => .ok []
  | b :: rest =>
    match pblockPayload b with
    | .error e => .error e
    | .ok payload =>
      if b.block_id < 256 ∧ payload.length < 4294967296 then
        match tracesToBytes rest with
        | .error e => .error e
        | .ok tail => .ok (b.block_id :: toBE32 payload.length ++ payload ++ tail)
      else .error .structError
end

/-- Source `bytes_from_block`: the block's payload prefixed with
`struct.pack('>BI', block.block_id, len(bytes))`. -/
def bytesFromBlock (b : PBlock) : Except PyError (List Nat) :=
  match pblockPayload b with
  | .error e => .error e
  | .ok payload =>
    if b.block_id < 256 ∧ payload.length < 4294967296 then
      .ok (b.block_id :: toBE32 payload.length ++ payload)
    else .error .structError

/-! ## `Xml.to_xml` field emission (`parser.py` lines 1015-1061)

`Xml.to_xml` walks the declared attribute fields and then the declared
subtag fields in schema order.  For each field it skips the field when the
instance does not have it (`if not hasattr(self, name): continue`) and when
the field's value equals its declared default (`if has_default_value(name):
continue`, where `has_default_value` is true exactly when the field appears
in `_defaults` -- i.e. its declaration has a fourth entry -- and the current
value compares equal to it).  Every surviving field is rendered by its codec
into one attribute (resp. one child element) named by the declaration.

The model abstracts over the typed field values (`α`) and records, for a
schema and an instance, which `(xml name, value)` pairs are emitted; the
per-field codec rendering is orthogonal to which fields appear.  The same
two `continue` lines govern both the attribute loop and the subtag loop, so
one function models both. -/

structure XmlFieldDef (α : Type) where
  name : String
  xmlName : String
  dflt : Option α
deriving DecidableEq, Repr

/-- One iteration of the emission loops of `to_xml` for the field declared
by `d`: skipped when unset, skipped when equal to the declared default,
otherwise emitted under the declared XML name. -/
def fieldEmitted {α : Type} [DecidableEq α] (vals : String → Option α)
    (d : XmlFieldDef α) : Option (String × α) :=
  match vals d.name with
  | none => none
  | some v => if d.dflt = some v then none else some (d.xmlName, v)

/-- The emitted attribute (resp. child element) sequence of `to_xml`, in
schema order. -/
def toXmlEmitted {α : Type} [DecidableEq α] (defs : List (XmlFieldDef α))
    (vals : String → Option α) : List (String × α) :=
  defs.filterMap (fieldEmitted vals)

/-! ## Document model (`parser.py` class `SnapGene`, lines 101-746)

The editing operations work on decoded block objects, so this layer models
blocks by their decoded state.  Only the fields that the modelled
operations read or write are carried: for features these are `id`, `name`
and `segments` (with each segment's `range`); for alignment metadata they
are `id`, `name`, `is_trace` and `sort_order`.  The remaining declared XML
attributes are never touched by the operations under study.  The trace
operations read `sort_order`/`id` of every entry, so entries are modelled
with those fields always present (an entry lacking them would make the
source raise `AttributeError` rather than complete).

Python raises an exception mid-method after some mutations may already have
happened, so the fallible editing operations return the document state at
the raise point alongside the error (`Except (PyError × SnapGene) SnapGene`);
an operation is atomic on a given error path exactly when that state equals
the input document. -/

structure FeatureSegment where
  range : Nat × Nat
deriving DecidableEq, Repr

structure Feature where
  id : Int
  name : String
  segments : List FeatureSegment
deriving DecidableEq, Repr

structure FeaturesBlock where
  features : List Feature
deriving DecidableEq, Repr

structure AlignmentMetadata where
  id : Int
  name : String
  is_trace : Bool
  sort_order : Int
deriving DecidableEq, Repr

structure AlignmentsBlock where
  trim_stringency : Option String
  metadata : List AlignmentMetadata
deriving DecidableEq, Repr

/-- Source `AlignedSequenceBlock`: a numeric id and the embedded trace sub-blocks
(each an `AlignedTraceBlock` holding raw ZTR bytes). -/
structure AlignedSeqBlock where
  id : Int
  traces : List (List Nat)
deriving DecidableEq, Repr

inductive DocBlock where
  | header (type_id export_version import_version : Nat)
  | restrictionDigest (unk_1 : Nat) (sites : List String) (unk_2 : List Nat)
  | dna (d : DnaBlock)
  | protein (props : Nat) (sequence : String)
  | features (fb : FeaturesBlock)
  | alignments (ab : AlignmentsBlock)
  | alignedSeq (sb : AlignedSeqBlock)
  | other (tag : Nat) (bytes : List Nat)
deriving DecidableEq, Repr

structure SnapGene where
  blocks : List DocBlock
deriving DecidableEq, Repr

/-- Source `SnapGene.reset`: a fresh document holds a default `HeaderBlock`
(`type_id = 1`, export and import version 14) and a default
`RestrictionDigestBlock` (`unk_1 = 1`, no sites, empty tail). -/
def SnapGene.reset : SnapGene :=
  ⟨[.header 1 14 14, .restrictionDigest 1 [] []]⟩

/-- Source `find_blocks(DnaBlock)`. -/
def dnaBlocks (sg : SnapGene) : List DnaBlock :=
  sg.blocks.filterMap fun b => match b with | .dna d => some d | _ => none

/-- Source `find_blocks(ProteinBlock)` (props byte and sequence). -/
def proteinBlocks (sg : SnapGene) : List (Nat × String) :=
  sg.blocks.filterMap fun b => match b with | .protein p s => some (p, s) | _ => none

/-- Source `find_blocks(FeaturesBlock)`. -/
def featuresBlocks (sg : SnapGene) : List FeaturesBlock :=
  sg.blocks.filterMap fun b => match b with | .features fb => some fb | _ => none

/-- Source `find_blocks(AlignmentsBlock)`. -/
def alignmentsBlocks (sg : SnapGene) : List AlignmentsBlock :=
  sg.blocks.filterMap fun b => match b with | .alignments ab => some ab | _ => none

/-- Source `find_block` is `one(find_blocks(cls), too_short=BlockNotFound,
too_long=AssertionError)`: the unique element, `BlockNotFound` when none
exist, `AssertionError` when several do. -/
def findOne {α : Type} : List α → Except PyError α
  | [] => .error .blockNotFound
  | [a] => .ok a
  | _ => .error .assertionError

/-- Write an updated `FeaturesBlock` back into the block list.  This models
Python's in-place aliasing: the operations below only call it after
`find_block` established that exactly one features block exists, so the map
replaces precisely that block at its original position. -/
def setFeaturesBlock (blocks : List DocBlock) (fb : FeaturesBlock) : List DocBlock :=
  blocks.map fun b => match b with | .features _ => .features fb | b => b

/-- Write an updated `AlignmentsBlock` back into the block list (same
aliasing argument as `setFeaturesBlock`). -/
def setAlignmentsBlock (blocks : List DocBlock) (ab : AlignmentsBlock) : List DocBlock :=
  blocks.map fun b => match b with | .alignments _ => .alignments ab | b => b

/-- Source `get_sequence`: try the DNA sequence, and on `BlockNotFound` fall back to
the protein sequence.  Any `AssertionError` from a duplicated singleton block
propagates. -/
def getSequence (sg : SnapGene) : Except PyError String :=
  match findOne (dnaBlocks sg) with
  | .ok d => .ok d.sequence
  | .error .blockNotFound =>
    match findOne (proteinBlocks sg) with
    | .ok ps => .ok ps.2
    | .error e => .error e
  | .error e => .error e

/-- Source `get_features`: the unique features block's list, or `[]` when the block
is absent. -/
def getFeatures (sg : SnapGene) : Except PyError (List Feature) :=
  match findOne (featuresBlocks sg) with
  | .ok fb => .ok fb.features
  | .error .blockNotFound => .ok []
  | .error e => .error e

/-! ### Feature operations (`add_feature` lines 268-319,
`remove_feature` lines 321-347) -/

/-- The removal loop of `remove_feature`: iterate over a snapshot
(`block.features[:]`) of the feature list, and for every entry whose name
matches, remove the first `==`-equal element from the current list
(`list.remove`); track whether anything matched.  (`list.remove` on a missing
value raises `ValueError`, but here every removed value comes from a snapshot
of the same list, so the miss branch of `List.erase` is unreachable.) -/
def removeFeatureLoop (name : String) :
    List Feature → List Feature → Bool → List Feature × Bool
  | [], cur, found => (cur, found)
  | f :: rest, cur, found =>
    if f.name = name then removeFeatureLoop name rest (cur.erase f) true
    else removeFeatureLoop name rest cur found

/-- The renumbering pass `for new_id, feat in enumerate(block.features):
feat.id = new_id`. -/
def renumberIds (fs : List Feature) : List Feature :=
  fs.enum.map fun kf => { kf.2 with id := (kf.1 : Int) }

/-- Source `remove_feature(name)`: find the features block (`BlockNotFound` is
re-raised as `FeatureNotFound`), remove every feature with the given name,
raise `FeatureNotFound` if none matched, then renumber the remaining ids
contiguously from 0. -/
def removeFeature (sg : SnapGene) (name : String) : Except PyError SnapGene :=
  match findOne (featuresBlocks sg) with
  | .error .blockNotFound => .error .featureNotFound
  | .error e => .error e
  | .ok fb =>
    let res := removeFeatureLoop name fb.features fb.features false
    if res.2 then .ok ⟨setFeaturesBlock sg.blocks ⟨renumberIds res.1⟩⟩
    else .error .featureNotFound

/-- Python's `str.upper()` (the sequences involved are ASCII letters). -/
def upperStr (s : String) : String := ⟨s.data.map Char.toUpper⟩

/-- The match positions of `re.finditer(f'(?={seq})', s)`: the zero-width
lookahead matches at every index where `seq` occurs, so overlapping
occurrences are all reported.  (The source interpolates the anchor text into
the regex; for anchor text free of regex metacharacters -- sequence letters
-- this is exactly the literal occurrence scan modelled here.) -/
def occPositions (pat s : String) : List Nat :=
  (List.range (s.length + 1)).filter fun i => pat.data.isPrefixOf (s.data.drop i)

/-- The per-occurrence loop of `add_feature`: for each match position `i`
(0-based), append a deep copy of the feature whose id is the block's
`next_id` (the current feature count) and whose single segment has the
1-based inclusive range `(i + 1, i + len)`.  When the original feature has no
segment a fresh one is created; when it has exactly one, that segment's range
is overwritten -- in both cases the copy carries one segment with that
range. -/
def addAnchoredLoop (f : Feature) (len : Nat) : List Nat → List Feature → List Feature
  | [], fs => fs
  | i :: rest, fs =>
    addAnchoredLoop f len rest
      (fs ++ [{ f with id := (fs.length : Int), segments := [⟨(i + 1, i + len)⟩] }])

/-- The closed form of `addAnchoredLoop`'s appended copies: the `k`-th copy
(ids counted from `n`) sits over the `k`-th occurrence. -/
def anchoredCopies (f : Feature) (len : Nat) : Nat → List Nat → List Feature
  | _, [] => []
  | n, i :: rest =>
    { f with id := (n : Int), segments := [⟨(i + 1, i + len)⟩] }
      :: anchoredCopies f len (n + 1) rest

/-- Source `add_feature(feature, seq)`: `find_or_make_block(FeaturesBlock)` first
(appending a fresh empty block when none exists -- this happens before any
failure below), then: with a falsy `seq` just append the feature with
`id = next_id`; otherwise find all case-insensitive overlapping occurrences
of `seq` in the document sequence, raising `SequenceNotFound` when there are
none, reject (`ValueError`) a feature that already has more than one segment,
and append one positioned copy per occurrence.  `addFeatureWith` is the
body of `add_feature` after the `find_or_make_block` call, taking the
features block that call produced; `addFeature` below performs that call. -/
def addFeatureWith (sg : SnapGene) (fb : FeaturesBlock) (feature : Feature)
    (seq : String) : Except (PyError × SnapGene) SnapGene :=
  if seq = "" then
    .ok ⟨setFeaturesBlock sg.blocks
          ⟨fb.features ++ [{ feature with id := (fb.features.length : Int) }]⟩⟩
  else
    match getSequence sg with
    | .error e => .error (e, sg)
    | .ok s =>
      let positions := occPositions (upperStr seq) (upperStr s)
      if positions = [] then .error (.sequenceNotFound, sg)
      else if feature.segments.length > 1 then .error (.valueError, sg)
      else .ok ⟨setFeaturesBlock sg.blocks
            ⟨addAnchoredLoop feature seq.length positions fb.features⟩⟩

/-- Source `add_feature(feature, seq)`: `find_or_make_block(FeaturesBlock)` -- the
existing unique block, or a fresh empty one appended to the block list
(an `AssertionError` from a duplicated block propagates) -- then the body
above. -/
def addFeature (sg : SnapGene) (feature : Feature) (seq : String) :
    Except (PyError × SnapGene) SnapGene :=
  match findOne (featuresBlocks sg) with
  | .error .blockNotFound =>
    addFeatureWith ⟨sg.blocks ++ [.features ⟨[]⟩]⟩ ⟨[]⟩ feature seq
  | .error e => .error (e, sg)
  | .ok fb => addFeatureWith sg fb feature seq

/-! ### Trace operations (`get_traces` lines 360-379, `insert_trace` lines
424-463, `remove_trace` lines 465-501, `append_trace`/`prepend_trace` lines
406-422) -/

/-- Source `get_traces()` (no name filter): the unique alignments block's metadata
list, or `[]` when the block is absent. -/
def getTraces (sg : SnapGene) : Except PyError (List AlignmentMetadata) :=
  match findOne (alignmentsBlocks sg) with
  | .ok ab => .ok ab.metadata
  | .error .blockNotFound => .ok []
  | .error e => .error e

/-- Source `count_traces()`. -/
def countTraces (sg : SnapGene) : Except PyError Nat :=
  (getTraces sg).map List.length

/-- Python's `max(xs, default=d)`. -/
def pyMax (xs : List Int) (d : Int) : Int :=
  match xs with
  | [] => d
  | x :: rest => rest.foldl max x

/-- The index actually used by Python's `list.insert(i, x)`: negative indices
count from the end, and out-of-range indices are clamped. -/
def pyInsertIdx (n : Nat) (i : Int) : Nat :=
  if i < 0 then ((n : Int) + i).toNat else min i.toNat n

/-- Python's `list.insert(i, x)`. -/
def pyInsert (l : List α) (i : Int) (x : α) : List α :=
  l.take (pyInsertIdx l.length i) ++ x :: l.drop (pyInsertIdx l.length i)

/-- The re-normalization loop at the end of `insert_trace`:
`for i, meta in enumerate(align_block.metadata): meta.sort_order = i`. -/
def renumberSortOrder (ms : List AlignmentMetadata) : List AlignmentMetadata :=
  ms.enum.map fun km => { km.2 with sort_order := (km.1 : Int) }

/-- Source `insert_trace(i, path, name)`: read the trace data and transcode it to
ZTR (any failure aborts before the document is touched), find the alignments
block (`BlockNotFound` when absent -- also before any mutation), compute
`next_id = max(existing metadata ids, default 0) + 1` (the source also
computes an unused `next_order`), append a new `AlignedSequenceBlock`
carrying the ZTR bytes, insert the paired metadata entry at position `i`, and
re-derive every entry's `sort_order` from the resulting list order.  A fresh
`AlignmentMetadata()` starts with no `sort_order`; the re-normalization
assigns it before the method returns, so the placeholder used here is never
observable. -/
def insertTrace (transcode : List Nat → Except PyError (List Nat))
    (sg : SnapGene) (i : Int) (data : List Nat) (name : String) :
    Except (PyError × SnapGene) SnapGene :=
  match transcode data with
  | .error e => .error (e, sg)
  | .ok ztr =>
    match findOne (alignmentsBlocks sg) with
    | .error e => .error (e, sg)
    | .ok ab =>
      let next_id := pyMax (ab.metadata.map (·.id)) 0 + 1
      let seq_block : AlignedSeqBlock := { id := next_id, traces := [ztr] }
      let meta : AlignmentMetadata :=
        { id := next_id, name := name, is_trace := true, sort_order := 0 }
      let md := renumberSortOrder (pyInsert ab.metadata i meta)
      .ok ⟨setAlignmentsBlock (sg.blocks ++ [.alignedSeq seq_block])
            { ab with metadata := md }⟩

/-- Source `append_trace`: insert at `count_traces()` (evaluated first, so its
errors surface before the trace file is read). -/
def appendTrace (transcode : List Nat → Except PyError (List Nat))
    (sg : SnapGene) (data : List Nat) (name : String) :
    Except (PyError × SnapGene) SnapGene :=
  match countTraces sg with
  | .error e => .error (e, sg)
  | .ok n => insertTrace transcode sg (n : Int) data name

/-- Source `prepend_trace`: insert at index 0. -/
def prependTrace (transcode : List Nat → Except PyError (List Nat))
    (sg : SnapGene) (data : List Nat) (name : String) :
    Except (PyError × SnapGene) SnapGene :=
  insertTrace transcode sg 0 data name

/-- The intermediate state of `remove_trace`: the alignments block's metadata
list and the document's block list with each block tagged by its original
position.  The position tags model Python object identity: the
`seq_blocks` dict holds references to particular block objects, and
`list.remove` / attribute assignment act on exactly those objects even after
other list elements have been removed or renumbered. -/
structure TraceEditState where
  metadata : List AlignmentMetadata
  tblocks : List (Nat × DocBlock)
deriving DecidableEq, Repr

/-- The dict `{block.id: block for block in find_blocks(AlignedSequenceBlock)}`:
for each id the comprehension keeps the last such block, identified here by
its position in the block list. -/
def seqBlockDict (tagged : List (Nat × DocBlock)) (i : Int) : Option Nat :=
  (tagged.reverse.find? fun pb =>
      match pb.2 with
      | .alignedSeq sb => decide (sb.id = i)
      | _ => false).map (·.1)

/-- The removal loop of `remove_trace`: iterate over a snapshot of the
metadata list; for each matching entry, remove it from the current metadata
(`list.remove`, first `==`-equal element) and then remove
`seq_blocks[meta.id]` from the block list -- `KeyError` when the id has no
aligned-sequence block at all, `ValueError` when the dict's block object was
already removed by an earlier iteration.  Errors carry the partially mutated
state. -/
def removeTraceLoop (name : String) (dict : Int → Option Nat) :
    List AlignmentMetadata → TraceEditState → Bool →
    Except (PyError × TraceEditState) (TraceEditState × Bool)
  | [], st, found => .ok (st, found)
  | m :: rest, st, found =>
    if m.name = name then
      let md := st.metadata.erase m
      match dict m.id with
      | none => .error (.keyError, { st with metadata := md })
      | some p =>
        if st.tblocks.any (fun pb => pb.1 = p) then
          removeTraceLoop name dict rest ⟨md, st.tblocks.filter (fun pb => pb.1 ≠ p)⟩ true
        else .error (.valueError, { st with metadata := md })
    else removeTraceLoop name dict rest st found

/-- The renumbering loop of `remove_trace`:
`for new_id, meta in enumerate(align_block.metadata): old_id = meta.id;
meta.id = seq_blocks[old_id].id = new_id`.  The chained assignment writes
`meta.id` first, then looks up `seq_blocks[old_id]` (`KeyError` possible) and
writes the new id onto that block object -- invisible when the object was
already removed from the block list. -/
def renumberTraceLoop (dict : Int → Option Nat) :
    Nat → List AlignmentMetadata → List (Nat × DocBlock) →
    Except (PyError × TraceEditState) TraceEditState
  | _, [], blocks => .ok ⟨[], blocks⟩
  | k, m :: rest, blocks =>
    let m2 := { m with id := (k : Int) }
    match dict m.id with
    | none => .error (.keyError, ⟨m2 :: rest, blocks⟩)
    | some p =>
      let blocks2 := blocks.map fun qb =>
        if qb.1 = p then
          (qb.1, match qb.2 with
                 | .alignedSeq sb => DocBlock.alignedSeq { sb with id := (k : Int) }
                 | b => b)
        else qb
      match renumberTraceLoop dict (k + 1) rest blocks2 with
      | .error (e, st) => .error (e, ⟨m2 :: st.metadata, st.tblocks⟩)
      | .ok st => .ok ⟨m2 :: st.metadata, st.tblocks⟩

/-- Drop the position tags and write the final metadata list back into the
(unique) alignments block. -/
def rebuildTrace (st : TraceEditState) : SnapGene :=
  ⟨(st.tblocks.map (·.2)).map fun b =>
      match b with
      | .alignments ab => .alignments { ab with metadata := st.metadata }
      | b => b⟩

/-- Source `remove_trace(name)`: find the alignments block, build the id-to-block
dict, remove every matching metadata/block pair (raising `ValueError` when
nothing matched), then renumber the remaining ids contiguously on both the
metadata entries and their paired blocks.  Note that, unlike `insert_trace`,
this method never touches `sort_order`. -/
def removeTrace (sg : SnapGene) (name : String) :
    Except (PyError × SnapGene) SnapGene :=
  match findOne (alignmentsBlocks sg) with
  | .error e => .error (e, sg)
  | .ok ab =>
    let dict := seqBlockDict sg.blocks.enum
    match removeTraceLoop name dict ab.metadata ⟨ab.metadata, sg.blocks.enum⟩ false with
    | .error (e, st) => .error (e, rebuildTrace st)
    | .ok (st, found) =>
      if found then
        match renumberTraceLoop dict 0 st.metadata st.tblocks with
        | .error (e, st2) => .error (e, rebuildTrace st2)
        | .ok st2 => .ok (rebuildTrace st2)
      else .error (.valueError, rebuildTrace st)

/-- A three-trace document: traces "a", "b", "c" with ids 1, 2, 3 and
contiguous sort orders 0, 1, 2, each metadata entry paired with an
aligned-sequence block of the same id. -/
def c1Demo : SnapGene :=
  ⟨[.header 1 14 14,
    .alignments ⟨none, [⟨1, "a", true, 0⟩, ⟨2, "b", true, 1⟩, ⟨3, "c", true, 2⟩]⟩,
    .alignedSeq ⟨1, [[10]]⟩, .alignedSeq ⟨2, [[20]]⟩, .alignedSeq ⟨3, [[30]]⟩]⟩

/-- The document produced by `remove_trace("b")` on `c1Demo`. -/
def c1DemoAfter : SnapGene :=
  ⟨[.header 1 14 14,
    .alignments ⟨none, [⟨0, "a", true, 0⟩, ⟨1, "c", true, 2⟩]⟩,
    .alignedSeq ⟨0, [[10]]⟩, .alignedSeq ⟨1, [[30]]⟩]⟩

/-- A document with three features "a", "b", "c" (ids 0, 1, 2). -/
def c6Demo : SnapGene :=
  ⟨[.header 1 14 14,
    .features ⟨[⟨0, "a", []⟩, ⟨1, "b", []⟩, ⟨2, "c", []⟩]⟩]⟩

/-- A document whose DNA sequence is "AAA". -/
def c7Demo : SnapGene :=
  ⟨[.header 1 14 14, .dna ⟨"linear", "double", false, false, false, "AAA"⟩]⟩

/-- A two-field schema shaped like the repository's `DummyXml` test schema:
`default_attrib` declares the default `""`, `text_attrib` declares no
default. -/
def c9Defs : List (XmlFieldDef String) :=
  [⟨"default_attrib", "default", some ""⟩, ⟨"text_attrib", "text", none⟩]

/-- An instance whose `default_attrib` is explicitly set to its declared
default and whose `text_attrib` is unset. -/
def c9Vals : String → Option String :=
  fun n => if n = "default_attrib" then some "" else none

/-! ## Theorems -/

theorem fromBE32_toBE32 (n : Nat) (h : n < 4294967296) :
    fromBE32 (n / 16777216 % 256) (n / 65536 % 256) (n / 256 % 256) (n % 256) = n := by
  simp only [fromBE32]
  omega

theorem encodeAscii_eq_ok (s : String) (h : ∀ c ∈ s.data, c.toNat < 128) :
    encodeAscii s = .ok (s.data.map Char.toNat) := by
  have hall : s.data.all (fun c => c.toNat < 128) = true := by
    rw [List.all_eq_true]; intro c hc; simpa using h c hc
  simp [encodeAscii, hall]

theorem decodeAscii_map_toNat (s : String) (h : ∀ c ∈ s.data, c.toNat < 128) :
    decodeAscii (s.data.map Char.toNat) = .ok s := by
  have hall : (s.data.map Char.toNat).all (fun b => b < 128) = true := by
    rw [List.all_eq_true]; intro b hb
    rcases List.mem_map.mp hb with ⟨c, hc, rfl⟩
    simpa using h c hc
  simp only [decodeAscii, hall, if_true, List.map_map]
  have hmap : s.data.map (Char.ofNat ∘ Char.toNat) = s.data.map id :=
    List.map_congr_left (fun c _ => Char.ofNat_toNat c)
  rw [hmap, List.map_id]

/-- C2: For every DnaBlock state (topology in {linear, circular}, strandedness
in {single, double}, three independent boolean methylation flags, and an ASCII
sequence string), decoding the bytes produced by encoding the block
(`DnaBlock.from_bytes` composed with `DnaBlock.to_bytes`) yields a block with
exactly the same topology, strandedness, three methylation flags, and
sequence text. -/
theorem dna_block_roundtrip (b : DnaBlock)
    (ht : b.topology = "linear" ∨ b.topology = "circular")
    (hs : b.strandedness = "single" ∨ b.strandedness = "double")
    (ha : ∀ c ∈ b.sequence.data, c.toNat < 128) :
    (DnaBlock.to_bytes b).bind DnaBlock.from_bytes = .ok b := by
  obtain ⟨t, sd, dam, dcm, eco, seq⟩ := b
  simp only at ht hs ha
  have he := encodeAscii_eq_ok seq ha
  have hd := decodeAscii_map_toNat seq ha
  rcases ht with rfl | rfl <;> rcases hs with rfl | rfl <;>
    cases dam <;> cases dcm <;> cases eco <;>
      simp [DnaBlock.to_bytes, DnaBlock.from_bytes, he, hd, Except.bind] <;> decide

/-- Witness for C2 at a concrete input: the all-flags-set circular
double-stranded block with sequence "ATCG" survives the round trip. -/
theorem dna_block_roundtrip_witness :
    (("circular" : String) = "linear" ∨ ("circular" : String) = "circular")
    ∧ (("double" : String) = "single" ∨ ("double" : String) = "double")
    ∧ (∀ c ∈ ("ATCG" : String).data, c.toNat < 128)
    ∧ (DnaBlock.to_bytes ⟨"circular", "double", true, true, true, "ATCG"⟩).bind
        DnaBlock.from_bytes = .ok ⟨"circular", "double", true, true, true, "ATCG"⟩ :=
  ⟨by simp, by simp, by decide,
    dna_block_roundtrip ⟨"circular", "double", true, true, true, "ATCG"⟩
      (by simp) (by simp) (by decide)⟩

/-- C3 counterexample: the claim asserts that decoding the single byte 0x07
yields all three methylation flags false; in fact bit 0x04 of 0x07 is set, so
the decoded block has `is_dam_methylated = true`.  This refutes the claim at
its own concrete input. -/
theorem c3_dna_from_bytes_0x07_counterexample :
    ¬ ∃ b, DnaBlock.from_bytes [7] = .ok b
        ∧ b.topology = "circular" ∧ b.strandedness = "double"
        ∧ b.is_dam_methylated = false ∧ b.is_dcm_methylated = false
        ∧ b.is_ecoki_methylated = false ∧ b.sequence = "" := by
  rintro ⟨b, hb, -, -, hdam, -, -, -⟩
  rw [show DnaBlock.from_bytes [7] =
      .ok ⟨"circular", "double", true, false, false, ""⟩ from rfl] at hb
  cases hb
  simp at hdam

/-- C3 amended: decoding the one-byte payload 0x07 yields topology "circular",
strandedness "double", dam methylation **true** (bit 0x04 is set in 0x07),
dcm and EcoKI methylation false, and the empty sequence.  This matches the
repository's own `test_dna.py`, which maps byte 0x07 to flags (1, 0, 0). -/
theorem c3_dna_from_bytes_0x07 :
    DnaBlock.from_bytes [7] =
      .ok ⟨"circular", "double", true, false, false, ""⟩ := rfl

/-- C4 evaluation: on the truncated input `b'\x01\x00\x00\x00\x01'` (tag 1
declaring a 1-byte payload with 0 bytes remaining), `blocks_from_bytes`
returns a one-block list whose payload was silently truncated to the empty
byte string -- it does not raise any unexpected-end-of-file `ParseError`,
contradicting the claim and the repository's own
`test_blocks_from_bytes_errors`. -/
theorem c4_blocks_from_bytes_truncated_returns_blocks :
    blocksFromBytes [1, 0, 0, 0, 1] = .ok [.mk 1 [] .raw]
    ∧ ∀ e, blocksFromBytes [1, 0, 0, 0, 1] ≠ .error e := by
  refine ⟨rfl, fun e h => ?_⟩
  rw [show blocksFromBytes [1, 0, 0, 0, 1] = .ok [.mk 1 [] .raw] from rfl] at h
  cases h

/-- C5: For every block type tag `t` with no registered handler class and
every payload byte string `p`, decoding the single-record stream
`t :: be32(len p) ++ p` dispatches to the raw-passthrough
`UndocumentedBlock` handler, and re-encoding the decoded block with
`bytes_from_block` reproduces exactly the original 1-byte tag, 4-byte
length, and payload bytes. -/
theorem unregistered_block_roundtrip (t : Nat) (p : List Nat)
    (ht : t < 256) (hreg : t ∉ registeredIds) (hp : p.length < 4294967296) :
    blocksFromBytes (t :: toBE32 p.length ++ p) = .ok [.mk t p .raw]
    ∧ bytesFromBlock (.mk t p .raw) = .ok (t :: toBE32 p.length ++ p) := by
  simp only [registeredIds, List.mem_cons, List.not_mem_nil, or_false] at hreg
  push_neg at hreg
  obtain ⟨h0, h1, h3, h5, h6, h7, h8, h9, h10, h11, h16, h17, h18, h19, h20, h21⟩ := hreg
  constructor
  · have hsize := fromBE32_toBE32 p.length hp
    simp only [blocksFromBytes, toBE32, List.cons_append, List.nil_append,
      List.length_cons, List.length_append]
    have hlen : p.length + 1 + 1 + 1 + 1 + 1 = (p.length + 4) + 1 := by omega
    rw [hlen, blocksFromBytesAux]
    simp only [toBE32] at hsize
    simp [h0, h1, h3, h6, h7, h8, h9, h10, h11, h16, h17, h21, hsize,
      List.take_length, List.drop_length, blocksFromBytesAux]
  · simp [bytesFromBlock, pblockPayload, PBlock.block_id, ht, hp]

/-- Witness for C5: tag 99 (unregistered) with payload `[7, 8]`. -/
theorem unregistered_block_roundtrip_witness :
    (99 : Nat) < 256 ∧ (99 : Nat) ∉ registeredIds
    ∧ ([7, 8] : List Nat).length < 4294967296
    ∧ (blocksFromBytes (99 :: toBE32 ([7, 8] : List Nat).length ++ [7, 8]) =
          .ok [.mk 99 [7, 8] .raw]
        ∧ bytesFromBlock (.mk 99 [7, 8] .raw) =
          .ok (99 :: toBE32 ([7, 8] : List Nat).length ++ [7, 8])) :=
  ⟨by decide, by decide, by decide,
    unregistered_block_roundtrip 99 [7, 8] (by decide) (by decide) (by decide)⟩

/-- C9: For every XML-backed structured record and every declared attribute
or child-element field, `Xml.to_xml` emits that field if and only if the
field is set on the instance and its value is not equal to the field's
declared default; a field explicitly set to its declared default, or
deleted/unset, produces no attribute or child element in the output. -/
theorem xml_default_suppression {α : Type} [DecidableEq α]
    (defs : List (XmlFieldDef α)) (vals : String → Option α)
    (d : XmlFieldDef α) (hd : d ∈ defs)
    (huniq : ∀ d2 ∈ defs, d2.xmlName = d.xmlName → d2 = d) :
    (∃ v, (d.xmlName, v) ∈ toXmlEmitted defs vals) ↔
      (∃ v, vals d.name = some v ∧ d.dflt ≠ some v) := by
  constructor
  · rintro ⟨v, hv⟩
    rcases List.mem_filterMap.mp hv with ⟨d2, hd2, hem⟩
    have hx : d2.xmlName = d.xmlName ∧ vals d2.name = some v ∧ d2.dflt ≠ some v := by
      unfold fieldEmitted at hem
      match hvals : vals d2.name with
      | none => rw [hvals] at hem; cases hem
      | some w =>
        rw [hvals] at hem
        have hem2 : (if d2.dflt = some w then none else some (d2.xmlName, w))
            = some (d.xmlName, v) := hem
        by_cases hdef : d2.dflt = some w
        · rw [if_pos hdef] at hem2; cases hem2
        · rw [if_neg hdef] at hem2
          injection hem2 with hem3
          injection hem3 with h1 h2
          subst h2
          exact ⟨h1, rfl, hdef⟩
    obtain rfl : d2 = d := huniq d2 hd2 hx.1
    exact ⟨v, hx.2.1, hx.2.2⟩
  · rintro ⟨v, hv, hdef⟩
    refine ⟨v, List.mem_filterMap.mpr ⟨d, hd, ?_⟩⟩
    unfold fieldEmitted
    rw [hv]
    show (if d.dflt = some v then (none : Option (String × α))
        else some (d.xmlName, v)) = some (d.xmlName, v)
    rw [if_neg hdef]

/-- Witness for C9 at a concrete schema and instance: the field set to its
declared default is not emitted (the right-hand side of the equivalence is
false, hence so is the left), and indeed the whole serialized output is
empty. -/
theorem xml_default_suppression_witness :
    (⟨"default_attrib", "default", some ""⟩ : XmlFieldDef String) ∈ c9Defs
    ∧ (∀ d2 ∈ c9Defs, d2.xmlName = "default" →
        d2 = (⟨"default_attrib", "default", some ""⟩ : XmlFieldDef String))
    ∧ ((∃ v, ("default", v) ∈ toXmlEmitted c9Defs c9Vals) ↔
        (∃ v, c9Vals "default_attrib" = some v ∧ (some "" : Option String) ≠ some v))
    ∧ toXmlEmitted c9Defs c9Vals = [] :=
  ⟨by decide, by decide,
    xml_default_suppression c9Defs c9Vals ⟨"default_attrib", "default", some ""⟩
      (by decide) (by decide), rfl⟩

theorem removeFeatureLoop_eq (name : String) (l : List Feature) :
    ∀ (pre : List Feature) (found : Bool), (∀ g ∈ pre, g.name ≠ name) →
    removeFeatureLoop name l (pre ++ l) found =
      (pre ++ l.filter (fun f => f.name ≠ name),
       found || l.any (fun f => f.name = name)) := by
  induction l with
  | nil => intro pre found _; simp [removeFeatureLoop]
  | cons f rest ih =>
    intro pre found hpre
    by_cases hf : f.name = name
    · have hne : f ∉ pre := fun hmem => hpre f hmem hf
      have herase : (pre ++ f :: rest).erase f = pre ++ rest := by
        rw [List.erase_append_right _ hne, List.erase_cons_head]
      rw [removeFeatureLoop, if_pos hf, herase, ih pre true hpre]
      simp [hf]
    · have hpre2 : ∀ g ∈ pre ++ [f], g.name ≠ name := by
        intro g hg
        rcases List.mem_append.mp hg with hg | hg
        · exact hpre g hg
        · rcases List.mem_singleton.mp hg with rfl; exact hf
      have hcur : pre ++ f :: rest = (pre ++ [f]) ++ rest := by simp
      rw [removeFeatureLoop, if_neg hf, hcur, ih (pre ++ [f]) found hpre2]
      simp [hf]

theorem featuresBlocks_set (blocks : List DocBlock) (fb2 : FeaturesBlock) :
    featuresBlocks ⟨setFeaturesBlock blocks fb2⟩ =
      (featuresBlocks ⟨blocks⟩).map (fun _ => fb2) := by
  induction blocks with
  | nil => rfl
  | cons b rest ih =>
    cases b <;> simp_all [featuresBlocks, setFeaturesBlock, List.filterMap_cons]

/-- C6: For every document (with at most one features block, the only shape
the format allows), `remove_feature(name)` raises `FeatureNotFound` exactly
when no feature has the given name, and on success removes every feature
with that name, keeping the remaining features in their original relative
order with ids renumbered to the contiguous sequence 0, 1, ..., n-1. -/
theorem remove_feature_spec (sg : SnapGene) (name : String) (fs : List Feature)
    (hub : (featuresBlocks sg).length ≤ 1)
    (hfs : getFeatures sg = .ok fs) :
    (removeFeature sg name = .error .featureNotFound ↔ ∀ f ∈ fs, f.name ≠ name)
    ∧ ∀ sg', removeFeature sg name = .ok sg' →
        getFeatures sg' = .ok (renumberIds (fs.filter (fun f => f.name ≠ name))) := by
  match h : featuresBlocks sg with
  | [] =>
    rw [getFeatures, h] at hfs
    cases hfs
    refine ⟨?_, ?_⟩
    · simp [removeFeature, h, findOne]
    · intro sg' hsg'
      rw [removeFeature, h] at hsg'
      cases hsg'
  | [fb] =>
    rw [getFeatures, h] at hfs
    cases hfs
    have hloop := removeFeatureLoop_eq name fb.features [] false (by simp)
    simp only [List.nil_append, Bool.false_or] at hloop
    constructor
    · rw [removeFeature, h]
      simp only [findOne, hloop]
      by_cases hany : fb.features.any (fun f => f.name = name)
      · simp only [hany, if_true]
        constructor
        · intro hcontra; cases hcontra
        · intro hall
          rcases List.any_eq_true.mp hany with ⟨f, hfmem, hfname⟩
          exact absurd (of_decide_eq_true hfname) (hall f hfmem)
      · rw [Bool.not_eq_true] at hany
        simp only [hany, Bool.false_eq_true, if_false, true_iff]
        intro f hfmem hfname
        have := List.any_eq_false.mp hany f hfmem
        exact this (decide_eq_true hfname)
    · intro sg' hsg'
      rw [removeFeature, h] at hsg'
      simp only [findOne, hloop] at hsg'
      by_cases hany : fb.features.any (fun f => f.name = name)
      · simp only [hany, if_true] at hsg'
        cases hsg'
        rw [getFeatures, featuresBlocks_set, h]
        simp [findOne]
      · rw [Bool.not_eq_true] at hany
        simp only [hany, Bool.false_eq_true, if_false] at hsg'
        cases hsg'
  | fb1 :: fb2 :: rest =>
    rw [h] at hub
    simp at hub

/-- Witness for C6: removing the middle feature "b" from the 3-feature
document leaves features "a", "c" with ids 0 and 1. -/
theorem remove_feature_spec_witness :
    (featuresBlocks c6Demo).length ≤ 1
    ∧ getFeatures c6Demo = .ok [⟨0, "a", []⟩, ⟨1, "b", []⟩, ⟨2, "c", []⟩]
    ∧ ((removeFeature c6Demo "b" = .error .featureNotFound ↔
          ∀ f ∈ ([⟨0, "a", []⟩, ⟨1, "b", []⟩, ⟨2, "c", []⟩] : List Feature),
            f.name ≠ "b")
       ∧ ∀ sg', removeFeature c6Demo "b" = .ok sg' →
          getFeatures sg' = .ok (renumberIds
            (([⟨0, "a", []⟩, ⟨1, "b", []⟩, ⟨2, "c", []⟩] : List Feature).filter
              (fun f => f.name ≠ "b")))) :=
  ⟨by decide, rfl,
    remove_feature_spec c6Demo "b" [⟨0, "a", []⟩, ⟨1, "b", []⟩, ⟨2, "c", []⟩]
      (by decide) rfl⟩

theorem addAnchoredLoop_eq (f : Feature) (len : Nat) (ps : List Nat) :
    ∀ fs : List Feature,
      addAnchoredLoop f len ps fs = fs ++ anchoredCopies f len fs.length ps := by
  induction ps with
  | nil => intro fs; simp [addAnchoredLoop, anchoredCopies]
  | cons i rest ih =>
    intro fs
    rw [addAnchoredLoop, ih]
    simp [anchoredCopies]

theorem dnaBlocks_append_features (blocks : List DocBlock) (fb : FeaturesBlock) :
    dnaBlocks ⟨blocks ++ [.features fb]⟩ = dnaBlocks ⟨blocks⟩ := by
  simp [dnaBlocks, List.filterMap_append]

theorem proteinBlocks_append_features (blocks : List DocBlock) (fb : FeaturesBlock) :
    proteinBlocks ⟨blocks ++ [.features fb]⟩ = proteinBlocks ⟨blocks⟩ := by
  simp [proteinBlocks, List.filterMap_append]

theorem getSequence_append_features (blocks : List DocBlock) (fb : FeaturesBlock) :
    getSequence ⟨blocks ++ [.features fb]⟩ = getSequence ⟨blocks⟩ := by
  rw [getSequence, getSequence, dnaBlocks_append_features,
    proteinBlocks_append_features]

theorem featuresBlocks_append_features (blocks : List DocBlock) (fb : FeaturesBlock) :
    featuresBlocks ⟨blocks ++ [.features fb]⟩ = featuresBlocks ⟨blocks⟩ ++ [fb] := by
  simp [featuresBlocks, List.filterMap_append]

/-- C7: For every document with sequence `s` (and at most one features
block) and every feature with at most one segment, `add_feature(feature,
seq)` with a non-empty anchor `seq`: if the anchor has no (case-insensitive)
occurrence in `s` it raises `SequenceNotFound` and adds no feature;
otherwise it appends exactly one feature copy per overlapping occurrence,
the `k`-th copy carrying id `|fs| + k` and a single segment whose range is
the 1-based inclusive pair `(i + 1, i + |seq|)` for occurrence start index
`i`. -/
theorem add_feature_anchored_spec (sg : SnapGene) (f : Feature) (seq s : String)
    (fs : List Feature)
    (hub : (featuresBlocks sg).length ≤ 1)
    (hfs : getFeatures sg = .ok fs)
    (hseq : seq ≠ "")
    (hseg : f.segments.length ≤ 1)
    (hs : getSequence sg = .ok s) :
    (occPositions (upperStr seq) (upperStr s) = [] →
       ∃ sg1, addFeature sg f seq = .error (.sequenceNotFound, sg1)
         ∧ getFeatures sg1 = .ok fs)
    ∧ (occPositions (upperStr seq) (upperStr s) ≠ [] →
       ∃ sg1, addFeature sg f seq = .ok sg1
         ∧ getFeatures sg1 = .ok (fs ++ anchoredCopies f seq.length fs.length
              (occPositions (upperStr seq) (upperStr s)))) := by
  have hseg2 : ¬ f.segments.length > 1 := by omega
  match h : featuresBlocks sg with
  | [] =>
    rw [getFeatures, h] at hfs
    cases hfs
    have hgs : getSequence ⟨sg.blocks ++ [.features ⟨[]⟩]⟩ = .ok s := by
      rw [getSequence_append_features]; exact hs
    have hfb : featuresBlocks ⟨sg.blocks ++ [.features ⟨[]⟩]⟩ = [⟨[]⟩] := by
      rw [featuresBlocks_append_features, h]; rfl
    constructor
    · intro hpos
      refine ⟨⟨sg.blocks ++ [.features ⟨[]⟩]⟩, ?_, ?_⟩
      · rw [addFeature, h]
        simp only [findOne, addFeatureWith, hseq, if_neg, hgs, hpos, if_pos]
        simp [hseq]
      · rw [getFeatures, hfb]; rfl
    · intro hpos
      refine ⟨⟨setFeaturesBlock (sg.blocks ++ [.features ⟨[]⟩])
          ⟨addAnchoredLoop f seq.length (occPositions (upperStr seq) (upperStr s)) []⟩⟩,
          ?_, ?_⟩
      · rw [addFeature, h]
        simp only [findOne, addFeatureWith, hgs, hpos]
        simp [hseq, hpos, hseg2]
      · rw [getFeatures]
        have := featuresBlocks_set (sg.blocks ++ [.features ⟨[]⟩])
          ⟨addAnchoredLoop f seq.length (occPositions (upperStr seq) (upperStr s)) []⟩
        rw [this, hfb]
        simp [findOne, addAnchoredLoop_eq, anchoredCopies]
  | [fb] =>
    rw [getFeatures, h] at hfs
    cases hfs
    constructor
    · intro hpos
      refine ⟨sg, ?_, ?_⟩
      · rw [addFeature, h]
        simp only [findOne, addFeatureWith, hs, hpos]
        simp [hseq, hpos]
      · rw [getFeatures, h]; rfl
    · intro hpos
      refine ⟨⟨setFeaturesBlock sg.blocks
          ⟨addAnchoredLoop f seq.length (occPositions (upperStr seq) (upperStr s))
            fb.features⟩⟩, ?_, ?_⟩
      · rw [addFeature, h]
        simp only [findOne, addFeatureWith, hs, hpos]
        simp [hseq, hpos, hseg2]
      · rw [getFeatures, featuresBlocks_set, h]
        simp [findOne, addAnchoredLoop_eq]
  | fb1 :: fb2 :: rest =>
    rw [h] at hub
    simp at hub

/-- Witness for C7: anchoring a segment-less feature to "AA" in "AAA"
creates two copies (overlapping occurrences at 0 and 1) with ranges (1, 2)
and (2, 3) and ids 0 and 1. -/
theorem add_feature_anchored_spec_witness :
    (featuresBlocks c7Demo).length ≤ 1
    ∧ getFeatures c7Demo = .ok []
    ∧ ("AA" : String) ≠ ""
    ∧ (Feature.mk 0 "site" []).segments.length ≤ 1
    ∧ getSequence c7Demo = .ok "AAA"
    ∧ ((occPositions (upperStr "AA") (upperStr "AAA") = [] →
         ∃ sg1, addFeature c7Demo ⟨0, "site", []⟩ "AA" =
             .error (.sequenceNotFound, sg1)
           ∧ getFeatures sg1 = .ok [])
       ∧ (occPositions (upperStr "AA") (upperStr "AAA") ≠ [] →
         ∃ sg1, addFeature c7Demo ⟨0, "site", []⟩ "AA" = .ok sg1
           ∧ getFeatures sg1 = .ok ([] ++ anchoredCopies ⟨0, "site", []⟩
                ("AA" : String).length 0
                (occPositions (upperStr "AA") (upperStr "AAA"))))) :=
  ⟨by decide, rfl, by decide, by decide, rfl,
    add_feature_anchored_spec c7Demo ⟨0, "site", []⟩ "AA" "AAA" []
      (by decide) rfl (by decide) (by decide) rfl⟩

/-- C8: For every document and every trace-insertion call, if the external
trace transcoder fails (missing executable or non-zero exit), then
`insert_trace` -- and hence `append_trace` and `prepend_trace` -- raises that
error with the document unchanged: no `AlignedSequenceBlock` is appended and
no metadata entry is added (the transcoding step runs before any document
mutation). -/
theorem insert_trace_transcoder_failure
    (transcode : List Nat → Except PyError (List Nat)) (sg : SnapGene)
    (i : Int) (data : List Nat) (name : String) (e : PyError)
    (h : transcode data = .error e) :
    insertTrace transcode sg i data name = .error (e, sg)
    ∧ (∃ e2, appendTrace transcode sg data name = .error (e2, sg))
    ∧ prependTrace transcode sg data name = .error (e, sg) := by
  have hins : ∀ j : Int, insertTrace transcode sg j data name = .error (e, sg) := by
    intro j; rw [insertTrace, h]
  refine ⟨hins i, ?_, hins 0⟩
  match hc : countTraces sg with
  | .error e2 => exact ⟨e2, by rw [appendTrace, hc]⟩
  | .ok n => exact ⟨e, by rw [appendTrace, hc]; exact hins n⟩

/-- Witness for C8: a transcoder that always fails leaves the fresh document
untouched. -/
theorem insert_trace_transcoder_failure_witness :
    (fun _ : List Nat => (.error .subprocessError : Except PyError (List Nat))) [9]
        = .error .subprocessError
    ∧ (insertTrace (fun _ => .error .subprocessError) SnapGene.reset 0 [9] "t"
          = .error (.subprocessError, SnapGene.reset)
       ∧ (∃ e2, appendTrace (fun _ => .error .subprocessError) SnapGene.reset [9] "t"
            = .error (e2, SnapGene.reset))
       ∧ prependTrace (fun _ => .error .subprocessError) SnapGene.reset [9] "t"
            = .error (.subprocessError, SnapGene.reset)) :=
  ⟨rfl, insert_trace_transcoder_failure (fun _ => .error .subprocessError)
    SnapGene.reset 0 [9] "t" .subprocessError rfl⟩

/-- C10: For every document that contains no `AlignmentsBlock` (for example a
freshly constructed document, whose block list holds only a header block and
a restriction-digest block), `insert_trace` -- and therefore `append_trace`
and `prepend_trace` -- raises `BlockNotFound` with the block list unchanged
(once the trace file itself was read and transcoded successfully), even
though `get_traces` returns the empty list and `count_traces` returns 0 on
the same document. -/
theorem insert_trace_no_alignments_block (sg : SnapGene)
    (h : alignmentsBlocks sg = [])
    (transcode : List Nat → Except PyError (List Nat))
    (data ztr : List Nat) (name : String) (i : Int)
    (ht : transcode data = .ok ztr) :
    insertTrace transcode sg i data name = .error (.blockNotFound, sg)
    ∧ appendTrace transcode sg data name = .error (.blockNotFound, sg)
    ∧ prependTrace transcode sg data name = .error (.blockNotFound, sg)
    ∧ getTraces sg = .ok []
    ∧ countTraces sg = .ok 0 := by
  have hget : getTraces sg = .ok [] := by rw [getTraces, h]; rfl
  have hcount : countTraces sg = .ok 0 := by rw [countTraces, hget]; rfl
  have hins : ∀ j : Int, insertTrace transcode sg j data name
      = .error (.blockNotFound, sg) := by
    intro j; rw [insertTrace, ht, h]; rfl
  exact ⟨hins i, by rw [appendTrace, hcount]; exact hins 0, hins 0, hget, hcount⟩

/-- Witness for C10: the freshly constructed document (header +
restriction-digest only) rejects the first trace insertion with
`BlockNotFound` even with a working transcoder. -/
theorem insert_trace_no_alignments_block_witness :
    alignmentsBlocks SnapGene.reset = []
    ∧ (fun _ : List Nat => (.ok [1, 2] : Except PyError (List Nat))) [9] = .ok [1, 2]
    ∧ (insertTrace (fun _ => .ok [1, 2]) SnapGene.reset 0 [9] "t"
          = .error (.blockNotFound, SnapGene.reset)
       ∧ appendTrace (fun _ => .ok [1, 2]) SnapGene.reset [9] "t"
          = .error (.blockNotFound, SnapGene.reset)
       ∧ prependTrace (fun _ => .ok [1, 2]) SnapGene.reset [9] "t"
          = .error (.blockNotFound, SnapGene.reset)
       ∧ getTraces SnapGene.reset = .ok []
       ∧ countTraces SnapGene.reset = .ok 0) :=
  ⟨rfl, rfl, insert_trace_no_alignments_block SnapGene.reset rfl
    (fun _ => .ok [1, 2]) [9] [1, 2] "t" 0 rfl⟩

/-- C1 evaluation at the failing input: removing the middle trace "b" from
`c1Demo` completes without error and restores the id-set half of the
invariant (metadata ids and block ids both become {0, 1}, contiguous), but
the surviving entries keep their stale sort orders [0, 2], which no longer
equal the list positions [0, 1]: `remove_trace` never re-derives
`sort_order`, so the claimed invariant does not hold after every structural
trace edit. -/
theorem c1_remove_trace_leaves_stale_sort_order :
    removeTrace c1Demo "b" = .ok c1DemoAfter
    ∧ (getTraces c1DemoAfter).map (List.map (fun m => m.id)) = .ok [0, 1]
    ∧ (getTraces c1DemoAfter).map (List.map (fun m => m.sort_order)) = .ok [0, 2]
    ∧ ([0, 2] : List Int) ≠ [0, 1] := by
  refine ⟨rfl, rfl, rfl, by decide⟩

end AutoSnapGene
